import Mathlib

/-!
Verification of the sandbox-construction and trust-boundary logic of
`src/LuaUtils.cpp` (a capability-restricted host environment for an embedded
Lua runtime).  The C++ source is shallowly embedded below: Lua values are an
inductive type, Lua numbers are exact rationals, the mutable interpreter
state touched by the loader (the `CurrentDirectory` global, the list of
executed scripts, the stderr diagnostic stream) is threaded explicitly, and
C functions that can raise Lua errors return `Except`.

Parts of the repository that are referenced by `LuaUtils.cpp` but whose
sources are not under verification (the `lookup3` hash, the `FileSystem`
service, the Lua runtime facilities themselves, the noreturn `Error`
reporting path) are modelled from the specification; each such definition
carries a doc comment saying so.
-/

/-- A Lua value, at the granularity needed by `LuaUtils.cpp`.  Lua strings
are byte sequences, so they are modelled as lists of bytes (naturals below
256 in all uses here); Lua numbers are C doubles, modelled as exact
rationals (see the comments on `l_hash_random` for where the exact model
and double arithmetic agree). -/
inductive LuaValue where
  | nil
  | boolean (b : Bool)
  | num (q : ℚ)
  | str (bytes : List Nat)
  deriving Repr, DecidableEq

/-- Modelled from the spec: one mixing step of the "two-output 32-bit mixing
hash function" declared in `lookup3.h` (repository code outside the sources
under verification).  Only two facts about the hash are used by any claim:
it is a pure function of the input bytes, and both outputs fit in 32 bits. -/
def lookup3_mix (p : Nat × Nat) (b : Nat) : Nat × Nat :=
  ((p.1 * 33 + b + p.2) % 2 ^ 32, (p.2 * 65599 + b + p.1) % 2 ^ 32)

/-- Modelled from the spec: `lookup3_hashlittle2`, the two-output 32-bit
mixing hash applied to a byte sequence, with the two in/out words
initialised to `initA`/`initB` (the caller in `LuaUtils.cpp` passes 0, 0). -/
def lookup3_hashlittle2 (bytes : List Nat) (initA initB : Nat) : Nat × Nat :=
  bytes.foldl lookup3_mix (initA % 2 ^ 32, initB % 2 ^ 32)

/-- Modelled from the spec: the "fixed-width binary representation" of a
numeric seed that `l_hash_random` feeds to the mixing hash
(`lookup3_hashlittle2(&n, sizeof(n), ...)`).  Lua numbers are modelled as
exact rationals, so the model serialises sign, numerator and denominator;
the claims depend only on this being a pure function of the number. -/
def numberBytes (q : ℚ) : List Nat :=
  (if q.num < 0 then [1] else [0]) ++ Nat.digits 256 q.num.natAbs ++ [255] ++
    Nat.digits 256 q.den

/-- The two 32-bit hash halves `(hashA, hashB)` that `l_hash_random` derives
from its first argument (`LuaUtils.cpp` lines 30-54), or `none` when the
argument has a type the function rejects with an error.  A `nil` first
argument yields the two fixed constants directly: they are not fed through
the mixing hash, they are used as the hash outputs themselves. -/
def hashPair : LuaValue → Option (Nat × Nat)
  | .nil => some (0xBF42B131, 0x2A40F7F2)
  | .str bytes => some (lookup3_hashlittle2 bytes 0 0)
  | .num q => some (lookup3_hashlittle2 (numberBytes q) 0 0)
  | .boolean _ => none

/-- The value in the range `0 ≤ x < 1` built at `LuaUtils.cpp` lines 56-58:
`x = (hashA >> 5) * 67108864.0 + double(hashB >> 6)`, then
`x *= 1.0 / 9007199254740992.0`.  Both steps are exact in double precision
(the integer is below `2^53` and the scaling divides by a power of two), so
the exact rational model coincides with the C double computation. -/
def hashFraction (hashA hashB : Nat) : ℚ :=
  ((hashA / 2 ^ 5) * 67108864 + hashB / 2 ^ 6 : Nat) / 9007199254740992

/-- Truncation of a rational toward zero: the semantics of the C cast
`int(...)` applied to a double whose value fits in the `int` range. -/
def ratTrunc (q : ℚ) : Int :=
  if 0 ≤ q then ⌊q⌋ else -⌊-q⌋

/-- Wraparound of an integer into the 32-bit signed range
`[-2^31, 2^31 - 1]`: the effect of narrowing a wider value into the C
`int` variables `m`, `n` of `l_hash_random`, and of overflow in the C
`int` computations `n - m + 1` and `m + int(...)`.  Signed overflow is
undefined behavior in C; the targeted platforms wrap, and the model
follows them. -/
def toInt32 (z : Int) : Int := (z + 2 ^ 31) % 2 ^ 32 - 2 ^ 31

/-- Rounding of a rational to the nearest integer, ties to even: the
mantissa rounding step of IEEE-754 binary arithmetic. -/
def roundHalfEven (x : ℚ) : Int :=
  if x - ⌊x⌋ < 1 / 2 then ⌊x⌋
  else if 1 / 2 < x - ⌊x⌋ then ⌊x⌋ + 1
  else if 2 ∣ ⌊x⌋ then ⌊x⌋ else ⌊x⌋ + 1

/-- The IEEE-754 double-precision value nearest to the exact rational `q`
(round to nearest, ties to even): the value the hardware produces for the
double product `x * (n - m + 1)` at `LuaUtils.cpp` line 76, whose exact
value generally needs more than the 53 mantissa bits of a double.
Exponent-range effects (overflow, subnormals) cannot arise at the
magnitudes reached in this module and are not modelled. -/
def fpRound (q : ℚ) : ℚ :=
  if q = 0 then 0
  else if q < 0 then
    -((roundHalfEven (-q / 2 ^ (Int.log 2 (-q) - 52)) : ℚ) *
      2 ^ (Int.log 2 (-q) - 52))
  else
    (roundHalfEven (q / 2 ^ (Int.log 2 q - 52)) : ℚ) *
      2 ^ (Int.log 2 q - 52)

/-- Model of `lua_tointeger` as used at `LuaUtils.cpp` lines 66-70: the
Lua API converts a number to the 64-bit `lua_Integer` by truncation toward
zero (exact for the in-range values the claims quantify over), and any
other value converts to 0.  The subsequent narrowing into the 32-bit C
`int` variables is `toInt32`, applied at the assignments in
`l_hash_random`, where the C code declares `int m, n`.  (the Lua
string-to-number coercion is not modelled; every claim quantifies over
number arguments in these positions.) -/
def lua_tointeger : LuaValue → Int
  | .num q => ratTrunc q
  | _ => 0

/-- The integer produced by the range branch of `l_hash_random`
(`LuaUtils.cpp` line 76): `m + int(x * (n - m + 1))`, where `m`, `n` hold
the already-narrowed C `int` values, `n - m + 1` is 32-bit `int`
arithmetic (wraparound), the product is the rounded double multiplication
`fpRound`, the cast truncates toward zero, and the final addition is again
32-bit `int` arithmetic. -/
def hashRandomInt (x : ℚ) (m n : Int) : Int :=
  toInt32 (m + ratTrunc (fpRound (x * ((toInt32 (n - m + 1) : Int) : ℚ))))

/-- Model of the C function `l_hash_random` (`LuaUtils.cpp` lines 27-79),
the Deterministic Randomness Source installed as `math.hash_random`.
`args` is the argument stack of the call; `luaL_checkany(L, 1)` raises an
error when the call received no argument at all, before the type switch
runs.  Error strings are transcribed without the surrounding quote
characters of the originals. -/
def l_hash_random (args : List LuaValue) : Except String LuaValue :=
  match args.head? with
  | none => .error "bad argument 1 to hash_random (value expected)"
  | some v =>
    match hashPair v with
    | none => .error "expected a string or a number for argument 1"
    | some (hashA, hashB) =>
      let x : ℚ := hashFraction hashA hashB
      if args.length = 1 then .ok (.num x)
      else if args.length = 3 then
        .ok (.num ((hashRandomInt x (toInt32 (lua_tointeger (args.getD 1 .nil)))
          (toInt32 (lua_tointeger (args.getD 2 .nil))) : Int) : ℚ))
      else if args.length = 2 then
        .ok (.num ((hashRandomInt x 1
          (toInt32 (lua_tointeger (args.getD 1 .nil))) : Int) : ℚ))
      else .error "unknown argument to hash_random"

deriving instance DecidableEq for Except

example : l_hash_random [] = .error "bad argument 1 to hash_random (value expected)" := by
  decide

example : l_hash_random [.nil] =
    .ok (.num (hashFraction 0xBF42B131 0x2A40F7F2)) := rfl

example : l_hash_random [.nil, .num 0] = .ok (.num 1) := by
  norm_num [l_hash_random, hashPair, hashRandomInt, lua_tointeger, ratTrunc,
    toInt32, fpRound]

/-- Both accumulator words of the mixing hash stay below `2^32`. -/
lemma lookup3_foldl_bound : ∀ (bytes : List Nat) (p : Nat × Nat),
    p.1 < 2 ^ 32 → p.2 < 2 ^ 32 →
    (bytes.foldl lookup3_mix p).1 < 2 ^ 32 ∧ (bytes.foldl lookup3_mix p).2 < 2 ^ 32
  | [], _, h1, h2 => ⟨h1, h2⟩
  | _ :: rest, p, _, _ =>
    lookup3_foldl_bound rest (lookup3_mix p _)
      (Nat.mod_lt _ (by norm_num)) (Nat.mod_lt _ (by norm_num))

/-- Both outputs of `lookup3_hashlittle2` are 32-bit values. -/
lemma lookup3_hashlittle2_bound (bytes : List Nat) (a b : Nat) :
    (lookup3_hashlittle2 bytes a b).1 < 2 ^ 32 ∧
    (lookup3_hashlittle2 bytes a b).2 < 2 ^ 32 :=
  lookup3_foldl_bound bytes _ (Nat.mod_lt _ (by norm_num)) (Nat.mod_lt _ (by norm_num))

/-- Every hash pair produced by the argument switch of `l_hash_random`
consists of two 32-bit values. -/
lemma hashPair_bound (v : LuaValue) (hA hB : Nat) (h : hashPair v = some (hA, hB)) :
    hA < 2 ^ 32 ∧ hB < 2 ^ 32 := by
  cases v with
  | nil =>
    simp [hashPair] at h
    omega
  | str bytes =>
    simp only [hashPair, Option.some.injEq] at h
    have hb := lookup3_hashlittle2_bound bytes 0 0
    rw [h] at hb
    simpa using hb
  | num q =>
    simp only [hashPair, Option.some.injEq] at h
    have hb := lookup3_hashlittle2_bound (numberBytes q) 0 0
    rw [h] at hb
    simpa using hb
  | boolean b => simp [hashPair] at h

/-- The generated fraction is nonnegative. -/
lemma hashFraction_nonneg (a b : Nat) : 0 ≤ hashFraction a b := by
  unfold hashFraction
  positivity

/-- For 32-bit hash halves the generated fraction is strictly below one:
the 27 kept bits of the first half and the 26 kept bits of the second half
assemble into an integer below `2^53`. -/
lemma hashFraction_lt_one (a b : Nat) (ha : a < 2 ^ 32) (hb : b < 2 ^ 32) :
    hashFraction a b < 1 := by
  unfold hashFraction
  rw [div_lt_one (by norm_num)]
  have h1 : a / 2 ^ 5 < 2 ^ 27 := by
    rw [Nat.div_lt_iff_lt_mul (by norm_num)]
    omega
  have h2 : b / 2 ^ 6 < 2 ^ 26 := by
    rw [Nat.div_lt_iff_lt_mul (by norm_num)]
    omega
  have : (a / 2 ^ 5) * 67108864 + b / 2 ^ 6 < 9007199254740992 := by omega
  exact_mod_cast this

/-- Truncation toward zero is the identity on integers. -/
lemma ratTrunc_intCast (n : Int) : ratTrunc ((n : ℚ)) = n := by
  unfold ratTrunc
  split
  · exact Int.floor_intCast n
  · rw [← Int.cast_neg, Int.floor_intCast]
    omega

/-- On nonnegative rationals, truncation toward zero is the floor. -/
lemma ratTrunc_eq_floor (q : ℚ) (h : 0 ≤ q) : ratTrunc q = ⌊q⌋ := if_pos h

/-- For 32-bit hash halves the generated fraction is at most
`(2^53 - 1) / 2^53`, the largest fraction the 53 assembled bits can form. -/
lemma hashFraction_le (a b : Nat) (ha : a < 2 ^ 32) (hb : b < 2 ^ 32) :
    hashFraction a b ≤ ((2 : ℚ) ^ 53 - 1) / 2 ^ 53 := by
  have h1 : a / 2 ^ 5 < 2 ^ 27 := by
    rw [Nat.div_lt_iff_lt_mul (by norm_num)]
    omega
  have h2 : b / 2 ^ 6 < 2 ^ 26 := by
    rw [Nat.div_lt_iff_lt_mul (by norm_num)]
    omega
  have h3 : (a / 2 ^ 5) * 67108864 + b / 2 ^ 6 ≤ 9007199254740991 := by omega
  have h4 : (((a / 2 ^ 5) * 67108864 + b / 2 ^ 6 : Nat) : ℚ) ≤ (2 : ℚ) ^ 53 - 1 := by
    have h5 : (((a / 2 ^ 5) * 67108864 + b / 2 ^ 6 : Nat) : ℚ) ≤ 9007199254740991 := by
      exact_mod_cast h3
    calc (((a / 2 ^ 5) * 67108864 + b / 2 ^ 6 : Nat) : ℚ)
        ≤ 9007199254740991 := h5
      _ = (2 : ℚ) ^ 53 - 1 := by norm_num
  unfold hashFraction
  calc (((a / 2 ^ 5) * 67108864 + b / 2 ^ 6 : Nat) : ℚ) / 9007199254740992
      = (((a / 2 ^ 5) * 67108864 + b / 2 ^ 6 : Nat) : ℚ) / 2 ^ 53 := by norm_num
    _ ≤ ((2 : ℚ) ^ 53 - 1) / 2 ^ 53 := by gcongr

/-- Wrapping is the identity on values already inside the 32-bit signed
range. -/
lemma toInt32_eq_self (z : Int) (h1 : -2 ^ 31 ≤ z) (h2 : z ≤ 2 ^ 31 - 1) :
    toInt32 z = z := by
  unfold toInt32
  omega

/-- Round-to-nearest-even of a nonnegative rational is nonnegative. -/
lemma roundHalfEven_nonneg (x : ℚ) (hx : 0 ≤ x) : 0 ≤ roundHalfEven x := by
  have h0 : 0 ≤ ⌊x⌋ := Int.floor_nonneg.mpr hx
  unfold roundHalfEven
  by_cases h1 : x - ⌊x⌋ < 1 / 2
  · rw [if_pos h1]; exact h0
  rw [if_neg h1]
  by_cases h2 : 1 / 2 < x - ⌊x⌋
  · rw [if_pos h2]; omega
  rw [if_neg h2]
  by_cases h3 : 2 ∣ ⌊x⌋
  · rw [if_pos h3]; exact h0
  · rw [if_neg h3]; omega

/-- Round-to-nearest-even moves a value up by at most one half. -/
lemma roundHalfEven_le (x : ℚ) : (roundHalfEven x : ℚ) ≤ x + 1 / 2 := by
  have hfl : (⌊x⌋ : ℚ) ≤ x := Int.floor_le x
  unfold roundHalfEven
  by_cases h1 : x - ⌊x⌋ < 1 / 2
  · rw [if_pos h1]; linarith
  rw [if_neg h1]
  by_cases h2 : 1 / 2 < x - ⌊x⌋
  · rw [if_pos h2]; push_cast; linarith
  rw [if_neg h2]
  have hhalf : x - ⌊x⌋ = 1 / 2 := le_antisymm (not_lt.mp h2) (not_lt.mp h1)
  by_cases h3 : 2 ∣ ⌊x⌋
  · rw [if_pos h3]; linarith
  · rw [if_neg h3]; push_cast; linarith

/-- The double rounding maps zero to zero. -/
lemma fpRound_zero : fpRound 0 = 0 := by simp [fpRound]

/-- Unfolding of the double rounding on positive arguments. -/
lemma fpRound_pos_eq (q : ℚ) (hq : 0 < q) :
    fpRound q = (roundHalfEven (q / 2 ^ (Int.log 2 q - 52)) : ℚ) *
      2 ^ (Int.log 2 q - 52) := by
  rw [fpRound, if_neg (ne_of_gt hq), if_neg (not_lt.mpr hq.le)]

/-- The double rounding preserves nonnegativity. -/
lemma fpRound_nonneg (q : ℚ) (hq : 0 ≤ q) : 0 ≤ fpRound q := by
  rcases eq_or_lt_of_le hq with h | h
  · rw [← h, fpRound_zero]
  · rw [fpRound_pos_eq q h]
    have hd : (0 : ℚ) < 2 ^ (Int.log 2 q - 52) := zpow_pos (by norm_num) _
    have hr := roundHalfEven_nonneg (q / 2 ^ (Int.log 2 q - 52))
      (div_nonneg h.le hd.le)
    have : (0 : ℚ) ≤ (roundHalfEven (q / 2 ^ (Int.log 2 q - 52)) : ℚ) := by
      exact_mod_cast hr
    exact mul_nonneg this hd.le

/-- The double rounding moves a positive value up by at most half an ulp:
one half of the binade spacing `2^(e - 52)`, where `e` is the binary
exponent of the value. -/
lemma fpRound_le (q : ℚ) (hq : 0 < q) :
    fpRound q ≤ q + 2 ^ (Int.log 2 q - 53) := by
  rw [fpRound_pos_eq q hq]
  have hd : (0 : ℚ) < 2 ^ (Int.log 2 q - 52) := zpow_pos (by norm_num) _
  have h1 := roundHalfEven_le (q / 2 ^ (Int.log 2 q - 52))
  have h2 : (roundHalfEven (q / 2 ^ (Int.log 2 q - 52)) : ℚ) *
      2 ^ (Int.log 2 q - 52) ≤
      (q / 2 ^ (Int.log 2 q - 52) + 1 / 2) * 2 ^ (Int.log 2 q - 52) :=
    mul_le_mul_of_nonneg_right h1 hd.le
  have h3 : (q / 2 ^ (Int.log 2 q - 52) + 1 / 2) * 2 ^ (Int.log 2 q - 52) =
      q + 2 ^ (Int.log 2 q - 52) / 2 := by
    field_simp
    ring
  have h4 : (2 : ℚ) ^ (Int.log 2 q - 52) = 2 ^ (Int.log 2 q - 53) * 2 := by
    rw [← zpow_add_one₀ (by norm_num : (2 : ℚ) ≠ 0) (Int.log 2 q - 53)]
    congr 1
    ring
  have h5 : (2 : ℚ) ^ (Int.log 2 q - 52) / 2 = 2 ^ (Int.log 2 q - 53) := by
    rw [h4]
    ring
  rw [h3, h5] at h2
  exact h2

/-- The heart of the range containment: rounding the double product cannot
push it up to the range width.  For an integer `R ≥ 1` and an exact
product `q ≤ R - R/2^53` (which holds whenever `q = f * R` with the
fraction `f ≤ (2^53 - 1)/2^53`), the gap to `R` is at least one ulp of
`R`, which is at least twice the half-ulp the rounding can add. -/
lemma fpRound_lt_int (q : ℚ) (R : Int) (hR : 1 ≤ R) (hq0 : 0 ≤ q)
    (hq : q ≤ (R : ℚ) - (R : ℚ) / 2 ^ 53) : fpRound q < (R : ℚ) := by
  have hRq : (1 : ℚ) ≤ (R : ℚ) := by exact_mod_cast hR
  have hR53 : (0 : ℚ) < (R : ℚ) / 2 ^ 53 := by positivity
  have hqR : q < (R : ℚ) := lt_of_le_of_lt hq (by linarith)
  rcases eq_or_lt_of_le hq0 with h0 | h0
  · rw [← h0, fpRound_zero]; linarith
  have hE2 : (2 : ℚ) ^ Int.log 2 (R : ℚ) ≤ (R : ℚ) :=
    Int.zpow_log_le_self (by norm_num) (by linarith)
  have heE : Int.log 2 q ≤ Int.log 2 (R : ℚ) := Int.log_mono_right h0 hqR.le
  have hfle := fpRound_le q h0
  have hEdiv : (2 : ℚ) ^ (Int.log 2 (R : ℚ) - 53) =
      2 ^ Int.log 2 (R : ℚ) / 2 ^ 53 := by
    rw [zpow_sub₀ (by norm_num : (2 : ℚ) ≠ 0)]
    norm_num
  by_cases hcase : (2 : ℚ) ^ Int.log 2 (R : ℚ) ≤ q
  · -- the value shares the binade of R, and then R exceeds 2^E strictly
    have hRgt : (2 : ℚ) ^ Int.log 2 (R : ℚ) < (R : ℚ) := lt_of_le_of_lt hcase hqR
    have h53 : (2 : ℚ) ^ (Int.log 2 q - 53) ≤ (2 : ℚ) ^ (Int.log 2 (R : ℚ) - 53) :=
      zpow_le_zpow_right₀ (by norm_num) (by omega)
    have hlt : (2 : ℚ) ^ Int.log 2 (R : ℚ) / 2 ^ 53 < (R : ℚ) / 2 ^ 53 := by
      gcongr
    rw [hEdiv] at h53
    linarith
  · -- the value sits at least one binade below R
    have hqE : q < (2 : ℚ) ^ Int.log 2 (R : ℚ) := not_le.mp hcase
    have heE1 : Int.log 2 q < Int.log 2 (R : ℚ) := by
      by_contra hcon
      push_neg at hcon
      have hc1 : (2 : ℚ) ^ Int.log 2 (R : ℚ) ≤ (2 : ℚ) ^ Int.log 2 q :=
        zpow_le_zpow_right₀ (by norm_num) hcon
      have hc2 : (2 : ℚ) ^ Int.log 2 q ≤ q := Int.zpow_log_le_self (by norm_num) h0
      linarith
    have h53 : (2 : ℚ) ^ (Int.log 2 q - 53) ≤ (2 : ℚ) ^ (Int.log 2 (R : ℚ) - 54) :=
      zpow_le_zpow_right₀ (by norm_num) (by omega)
    have hEE : (2 : ℚ) ^ (Int.log 2 (R : ℚ) - 53) =
        2 ^ (Int.log 2 (R : ℚ) - 54) * 2 := by
      rw [← zpow_add_one₀ (by norm_num : (2 : ℚ) ≠ 0) (Int.log 2 (R : ℚ) - 54)]
      congr 1
      ring
    have hR53ge : (2 : ℚ) ^ (Int.log 2 (R : ℚ) - 53) ≤ (R : ℚ) / 2 ^ 53 := by
      rw [hEdiv]
      gcongr
    have hpos : (0 : ℚ) < 2 ^ (Int.log 2 (R : ℚ) - 54) := zpow_pos (by norm_num) _
    linarith

/-- The range mapping of `l_hash_random`: for a fraction in
`[0, (2^53 - 1)/2^53]` and a nonempty inclusive range whose endpoints and
width fit in the 32-bit `int` type, `m + int(x * (n - m + 1))` computes
the floor of the rounded double product, no wraparound occurs, and the
result lands inside `[m, n]`. -/
lemma hashRandomInt_spec (x : ℚ) (m n : Int) (hx0 : 0 ≤ x)
    (hxle : x ≤ ((2 : ℚ) ^ 53 - 1) / 2 ^ 53) (hmn : m ≤ n)
    (hm : -2 ^ 31 ≤ m) (hn : n ≤ 2 ^ 31 - 1) (hw : n - m + 1 ≤ 2 ^ 31 - 1) :
    hashRandomInt x m n = m + ⌊fpRound (x * ((n - m + 1 : Int) : ℚ))⌋ ∧
    m ≤ hashRandomInt x m n ∧ hashRandomInt x m n ≤ n := by
  have hR1 : (1 : Int) ≤ n - m + 1 := by omega
  have hRw : toInt32 (n - m + 1) = n - m + 1 := toInt32_eq_self _ (by omega) hw
  have hRq : (1 : ℚ) ≤ ((n - m + 1 : Int) : ℚ) := by exact_mod_cast hR1
  have hq0 : 0 ≤ x * ((n - m + 1 : Int) : ℚ) := mul_nonneg hx0 (by linarith)
  have hqle : x * ((n - m + 1 : Int) : ℚ) ≤
      ((n - m + 1 : Int) : ℚ) - ((n - m + 1 : Int) : ℚ) / 2 ^ 53 := by
    have h1 : x * ((n - m + 1 : Int) : ℚ) ≤
        (((2 : ℚ) ^ 53 - 1) / 2 ^ 53) * ((n - m + 1 : Int) : ℚ) :=
      mul_le_mul_of_nonneg_right hxle (by linarith)
    have h2 : (((2 : ℚ) ^ 53 - 1) / 2 ^ 53) * ((n - m + 1 : Int) : ℚ) =
        ((n - m + 1 : Int) : ℚ) - ((n - m + 1 : Int) : ℚ) / 2 ^ 53 := by
      ring
    linarith
  have hlt := fpRound_lt_int (x * ((n - m + 1 : Int) : ℚ)) (n - m + 1) hR1 hq0 hqle
  have hnn := fpRound_nonneg (x * ((n - m + 1 : Int) : ℚ)) hq0
  have hfl0 : 0 ≤ ⌊fpRound (x * ((n - m + 1 : Int) : ℚ))⌋ := Int.floor_nonneg.mpr hnn
  have hflR : ⌊fpRound (x * ((n - m + 1 : Int) : ℚ))⌋ < n - m + 1 :=
    Int.floor_lt.mpr hlt
  have hsum : toInt32 (m + ⌊fpRound (x * ((n - m + 1 : Int) : ℚ))⌋) =
      m + ⌊fpRound (x * ((n - m + 1 : Int) : ℚ))⌋ :=
    toInt32_eq_self _ (by omega) (by omega)
  unfold hashRandomInt
  rw [hRw, ratTrunc_eq_floor _ hnn, hsum]
  exact ⟨rfl, by omega, by omega⟩

/-- Evaluation of the three-argument calling form of `l_hash_random` on an
accepted seed and two integer-valued number arguments. -/
lemma l_hash_random_three (v : LuaValue) (hA hB : Nat)
    (h : hashPair v = some (hA, hB)) (m n : Int) :
    l_hash_random [v, .num (m : ℚ), .num (n : ℚ)] =
      .ok (.num ((hashRandomInt (hashFraction hA hB)
        (toInt32 m) (toInt32 n) : Int) : ℚ)) := by
  simp [l_hash_random, h, lua_tointeger, ratTrunc_intCast]

/-- Evaluation of the two-argument calling form of `l_hash_random` on an
accepted seed and an integer-valued number argument. -/
lemma l_hash_random_two (v : LuaValue) (hA hB : Nat)
    (h : hashPair v = some (hA, hB)) (n : Int) :
    l_hash_random [v, .num (n : ℚ)] =
      .ok (.num ((hashRandomInt (hashFraction hA hB) 1 (toInt32 n) : Int) : ℚ)) := by
  simp [l_hash_random, h, lua_tointeger, ratTrunc_intCast]

/-- Claim C2: `hash_random` is pure and deterministic: two calls with equal
argument lists return the identical result.  The embedding of
`l_hash_random` is a plain function of its arguments: the C code reads no
interpreter or host state besides the argument stack, so equal inputs give
equal outputs on repeated calls within a run and across runs. -/
theorem c2_hash_random_deterministic (a b : List LuaValue) (h : a = b) :
    l_hash_random a = l_hash_random b := by rw [h]

/-- Witness for claim C2 at a concrete argument list. -/
theorem c2_hash_random_deterministic_witness :
    [LuaValue.nil] = [LuaValue.nil] ∧
    l_hash_random [LuaValue.nil] = l_hash_random [LuaValue.nil] :=
  ⟨rfl, c2_hash_random_deterministic [LuaValue.nil] [LuaValue.nil] rfl⟩

/-- Counterexample for claim C8 at the accepted nil seed with
`lo = -2^31`, `hi = 2^31 - 1` (both in `int` range): the 32-bit width
computation `hi - lo + 1` wraps to 0, the product with 0 is 0, and the
call returns `lo` - not the value `lo + floor(f * (hi - lo + 1))` the
claim prescribes, which exceeds `lo` because `f * 2^32 ≥ 1`. -/
theorem c8_wrap_counterexample :
    l_hash_random [LuaValue.nil, .num ((-2 ^ 31 : Int) : ℚ),
        .num ((2 ^ 31 - 1 : Int) : ℚ)] =
      .ok (.num ((-2 ^ 31 : Int) : ℚ)) ∧
    (-2 ^ 31 : Int) ≠
      -2 ^ 31 + ⌊hashFraction 0xBF42B131 0x2A40F7F2 *
        (((2 ^ 31 - 1 : Int) - (-2 ^ 31 : Int) + 1 : Int) : ℚ)⌋ := by
  constructor
  · rw [l_hash_random_three LuaValue.nil _ _ rfl]
    norm_num [hashRandomInt, toInt32, ratTrunc, fpRound]
  · have h : (1 : ℚ) ≤ hashFraction 0xBF42B131 0x2A40F7F2 *
        (((2 ^ 31 - 1 : Int) - (-2 ^ 31 : Int) + 1 : Int) : ℚ) := by
      norm_num [hashFraction]
    have h2 : (1 : Int) ≤ ⌊hashFraction 0xBF42B131 0x2A40F7F2 *
        (((2 ^ 31 - 1 : Int) - (-2 ^ 31 : Int) + 1 : Int) : ℚ)⌋ :=
      Int.le_floor.mpr (by exact_mod_cast h)
    omega

/-- Claim C8 (amended): for every accepted seed and all integers
`lo ≤ hi` representable in the 32-bit `int` type whose range width
`hi - lo + 1` is also representable, `hash_random(seed, lo, hi)` returns
`lo + floor(fl(f * (hi - lo + 1)))`, where `f` is the 53-bit fraction
built from the upper 27 bits of the first hash half and the upper 26 bits
of the second, `0 ≤ f < 1`, and `fl` is the IEEE round-to-nearest-even
double multiplication; the result lies in `[lo, hi]`.  Outside those
bounds the C `int` arithmetic wraps and the formula fails (see the
counterexample). -/
theorem c8_hash_random_range (v : LuaValue) (hA hB : Nat)
    (hp : hashPair v = some (hA, hB)) (lo hi : Int) (h : lo ≤ hi)
    (hlo : -2 ^ 31 ≤ lo) (hhi : hi ≤ 2 ^ 31 - 1)
    (hw : hi - lo + 1 ≤ 2 ^ 31 - 1) :
    l_hash_random [v, .num (lo : ℚ), .num (hi : ℚ)] =
      .ok (.num ((lo +
        ⌊fpRound (hashFraction hA hB * ((hi - lo + 1 : Int) : ℚ))⌋ : Int) : ℚ)) ∧
    0 ≤ hashFraction hA hB ∧ hashFraction hA hB < 1 ∧
    lo ≤ lo + ⌊fpRound (hashFraction hA hB * ((hi - lo + 1 : Int) : ℚ))⌋ ∧
    lo + ⌊fpRound (hashFraction hA hB * ((hi - lo + 1 : Int) : ℚ))⌋ ≤ hi := by
  obtain ⟨ha, hb⟩ := hashPair_bound v hA hB hp
  have hx0 := hashFraction_nonneg hA hB
  have hx1 := hashFraction_lt_one hA hB ha hb
  have hxle := hashFraction_le hA hB ha hb
  obtain ⟨heq, hlo2, hhi2⟩ :=
    hashRandomInt_spec (hashFraction hA hB) lo hi hx0 hxle h hlo hhi hw
  refine ⟨?_, hx0, hx1, by omega, by omega⟩
  rw [l_hash_random_three v hA hB hp lo hi, toInt32_eq_self lo hlo (by omega),
    toInt32_eq_self hi (by omega) hhi, heq]

/-- Witness for claim C8: the nil seed with the range `[3, 5]`. -/
theorem c8_hash_random_range_witness :
    hashPair LuaValue.nil = some (0xBF42B131, 0x2A40F7F2) ∧ (3 : Int) ≤ 5 ∧
    (l_hash_random [LuaValue.nil, .num ((3 : Int) : ℚ), .num ((5 : Int) : ℚ)] =
      .ok (.num ((3 +
        ⌊fpRound (hashFraction 0xBF42B131 0x2A40F7F2 * ((5 - 3 + 1 : Int) : ℚ))⌋ : Int) : ℚ)) ∧
    0 ≤ hashFraction 0xBF42B131 0x2A40F7F2 ∧
    hashFraction 0xBF42B131 0x2A40F7F2 < 1 ∧
    (3 : Int) ≤ 3 +
      ⌊fpRound (hashFraction 0xBF42B131 0x2A40F7F2 * ((5 - 3 + 1 : Int) : ℚ))⌋ ∧
    3 + ⌊fpRound (hashFraction 0xBF42B131 0x2A40F7F2 * ((5 - 3 + 1 : Int) : ℚ))⌋ ≤ 5) :=
  ⟨rfl, by decide, c8_hash_random_range LuaValue.nil _ _ rfl 3 5 (by decide)
    (by decide) (by decide) (by decide)⟩

/-- Counterexample for claim C9: calling `hash_random` with zero arguments
does not succeed; `luaL_checkany(L, 1)` raises an argument-check error
before the type switch runs. -/
theorem c9_zero_args_counterexample :
    l_hash_random [] = .error "bad argument 1 to hash_random (value expected)" := by
  decide

/-- Claim C9 (amended): a call with zero arguments raises an error; a call
whose single argument is nil always returns the same fixed value, whose two
32-bit hash halves are the constants `0xBF42B131` and `0x2A40F7F2` used
directly as the hash outputs (they are not fed through the mixing hash). -/
theorem c9_nil_seed_fixed_value :
    l_hash_random [LuaValue.nil] =
      .ok (.num (hashFraction 0xBF42B131 0x2A40F7F2)) ∧
    hashPair LuaValue.nil = some (0xBF42B131, 0x2A40F7F2) ∧
    hashFraction 0xBF42B131 0x2A40F7F2 =
      (6729381144232927 : ℚ) / 9007199254740992 := by
  refine ⟨rfl, rfl, ?_⟩
  norm_num [hashFraction]

/-- Counterexample for claim C10: with the accepted nil seed and `n = 0`,
the two-argument call returns 1, which does not lie in the inclusive range
`[1, 0]` the claim asserts for every integer `n`. -/
theorem c10_two_arg_out_of_range :
    l_hash_random [LuaValue.nil, .num 0] = .ok (.num 1) ∧ ¬ ((1 : Int) ≤ 0) := by
  refine ⟨?_, by decide⟩
  norm_num [l_hash_random, hashPair, hashRandomInt, lua_tointeger, ratTrunc,
    toInt32, fpRound]

/-- Claim C10 (amended): the two-argument call `hash_random(seed, n)` is
accepted and behaves exactly as `hash_random(seed, 1, n)` for every
integer `n`; when `1 ≤ n ≤ 2^31 - 1` (so that `n` is representable in the
C `int` type and no wraparound occurs) the result is an integer in the
inclusive range `[1, n]`. -/
theorem c10_two_arg_form (v : LuaValue) (hA hB : Nat)
    (hp : hashPair v = some (hA, hB)) (n : Int) :
    l_hash_random [v, .num (n : ℚ)] =
      l_hash_random [v, .num ((1 : Int) : ℚ), .num (n : ℚ)] ∧
    (1 ≤ n → n ≤ 2 ^ 31 - 1 →
      ∃ r : Int, l_hash_random [v, .num (n : ℚ)] = .ok (.num (r : ℚ)) ∧
        1 ≤ r ∧ r ≤ n) := by
  constructor
  · rw [l_hash_random_two v hA hB hp n, l_hash_random_three v hA hB hp 1 n,
      show toInt32 1 = 1 from by decide]
  · intro hn hn2
    obtain ⟨ha, hb⟩ := hashPair_bound v hA hB hp
    obtain ⟨_, hlo, hhi⟩ := hashRandomInt_spec (hashFraction hA hB) 1 n
      (hashFraction_nonneg hA hB) (hashFraction_le hA hB ha hb) hn
      (by norm_num) hn2 (by omega)
    have hn32 : toInt32 n = n := toInt32_eq_self n (by omega) hn2
    refine ⟨hashRandomInt (hashFraction hA hB) 1 n, ?_, hlo, hhi⟩
    rw [l_hash_random_two v hA hB hp n, hn32]

/-- Witness for claim C10 at the nil seed and `n = 7`. -/
theorem c10_two_arg_form_witness :
    ∃ r : Int, l_hash_random [LuaValue.nil, .num ((7 : Int) : ℚ)] =
      .ok (.num (r : ℚ)) ∧ 1 ≤ r ∧ r ≤ 7 :=
  (c10_two_arg_form LuaValue.nil _ _ rfl 7).2 (by decide) (by decide)

/-- A raw Lua table at the granularity needed by `pi_lua_table_ro`: an
association list from string keys to values. -/
abbrev NTable := List (String × LuaValue)

/-- Model of `lua_rawget` restricted to string keys: the raw lookup that
ignores metatables. -/
def rawget (t : NTable) (k : String) : Option LuaValue :=
  (t.find? (fun kv => kv.1 == k)).map (fun kv => kv.2)

/-- Model of `lua_rawset`: replace the binding when the key is present,
append it otherwise. -/
def rawset (t : NTable) (k : String) (v : LuaValue) : NTable :=
  if (t.find? (fun kv => kv.1 == k)).isSome then
    t.map (fun kv => if kv.1 == k then (k, v) else kv)
  else t ++ [(k, v)]

/-- Identity of the one C function this module installs in a metatable. -/
inductive CFunId where
  | roTableError
  deriving Repr, DecidableEq

/-- A value stored in one of the three metatable fields written by
`pi_lua_table_ro`. -/
inductive MetaField where
  | mtable (t : NTable)
  | mcfun (f : CFunId)
  | mbool (b : Bool)
  | mabsent
  deriving DecidableEq

/-- The three metatable fields that `pi_lua_table_ro` writes: `__index`,
`__newindex` and `__metatable`. -/
structure Metatable where
  mindex : MetaField
  mnewindex : MetaField
  mmetatable : MetaField
  deriving DecidableEq

/-- Model of the static C function `_ro_table_error` (`LuaUtils.cpp` lines
6-10): it raises the fixed message `Attempt to modify read-only table`,
ignoring the key and value of the intercepted write. -/
def ro_table_error (_k : String) (_v : LuaValue) : Except String Unit :=
  .error "Attempt to modify read-only table"

/-- Model of `pi_lua_table_ro` (`LuaUtils.cpp` lines 12-25).  The function
does not build a separate proxy: it installs on the argument table itself a
fresh metatable whose `__index` points back at that same table, whose
`__newindex` is `_ro_table_error`, and whose `__metatable` is `false`, and
returns the table paired with its new metatable. -/
def pi_lua_table_ro (t : NTable) : NTable × Metatable :=
  (t, { mindex := .mtable t, mnewindex := .mcfun .roTableError,
        mmetatable := .mbool false })

/-- Modelled from the spec: the read operation of the embedding runtime
through a table with a metatable, with the re-dispatch semantics of the
runtime: a raw hit wins, and on a miss a table-valued `__index` is not
read rawly - the whole read is retried on it, following its own metatable
in turn, and the runtime aborts with the error `loop in gettable` once the
chain exceeds its loop limit (MAXTAGLOOP, 100 in the embedded runtime).
In this module the only table carrying a metatable is the one protected by
`pi_lua_table_ro`, whose `__index` is that same table, so a re-dispatch to
it sees the same table and metatable again; any other `__index` table
carries no metatable and the read ends on it with a plain lookup.  An
absent `__index` ends the read with nil; a function-valued `__index` does
not arise in this module. -/
def luaGetLoop (t : NTable) (mt : Metatable) (k : String) :
    Nat → Except String LuaValue
  | 0 => .error "loop in gettable"
  | fuel + 1 =>
    match rawget t k with
    | some v => .ok v
    | none =>
      match mt.mindex with
      | .mtable u =>
        if u = t then luaGetLoop t mt k fuel
        else .ok ((rawget u k).getD .nil)
      | _ => .ok .nil

/-- A read through a table with a metatable: the runtime allows at most
MAXTAGLOOP = 100 `__index` re-dispatches before raising. -/
def luaGet (t : NTable) (mt : Metatable) (k : String) : Except String LuaValue :=
  luaGetLoop t mt k 100

/-- One re-dispatch step on a raw hit returns the stored value. -/
lemma luaGetLoop_hit (t : NTable) (mt : Metatable) (k : String) (fuel : Nat)
    (v : LuaValue) (h : rawget t k = some v) :
    luaGetLoop t mt k (fuel + 1) = .ok v := by
  simp [luaGetLoop, h]

/-- With a self-referential table-valued `__index` and a missing key, the
re-dispatch never terminates and every fuel budget ends in the loop
error. -/
lemma luaGetLoop_self (t : NTable) (mt : Metatable) (k : String)
    (hmiss : rawget t k = none) (hself : mt.mindex = .mtable t) (fuel : Nat) :
    luaGetLoop t mt k fuel = .error "loop in gettable" := by
  induction fuel with
  | zero => rfl
  | succ fuel ih => simp [luaGetLoop, hmiss, hself, ih]

/-- Modelled from the spec: the write operation of the embedding runtime through a table
that has a metatable.  When the key is already present rawly the write is a
raw update and the `__newindex` handler is not consulted; when the key is
absent the `__newindex` C function runs (here it can only raise), and with
no handler the write is a raw set.  A table-valued `__newindex` does not
arise in this module. -/
def luaSet (t : NTable) (mt : Metatable) (k : String) (v : LuaValue) :
    Except String NTable :=
  if (rawget t k).isSome then .ok (rawset t k v)
  else
    match mt.mnewindex with
    | .mcfun .roTableError =>
      match ro_table_error k v with
      | .error msg => .error msg
      | .ok _ => .ok t
    | _ => .ok (rawset t k v)

/-- Modelled from the spec: script-level `getmetatable`.  When the
metatable has a `__metatable` field, scripts receive the value of that field and
the metatable itself stays unreachable; `none` means the real metatable
would be handed out. -/
def lua_getmetatable (mt : Metatable) : Option LuaValue :=
  match mt.mmetatable with
  | .mbool b => some (.boolean b)
  | .mtable _ => some .nil
  | .mcfun _ => some .nil
  | .mabsent => none

/-- Modelled from the spec: script-level `setmetatable` raises when the
current metatable has a `__metatable` field. -/
def lua_setmetatable (mt newMt : Metatable) : Except String Metatable :=
  match mt.mmetatable with
  | .mabsent => .ok newMt
  | _ => .error "cannot change a protected metatable"

/-- Counterexample for claim C3 on the namespace `{x = 1}`: a write to the
existing key `x` through the wrapper returns successfully and mutates the
table (the `__newindex` handler only fires for absent keys, and
`pi_lua_table_ro` wraps the table itself, whose keys are all present); and
the error raised for the absent keys `alpha` and `beta` is the same fixed
message, so the error does not name the attempted key. -/
theorem c3_write_counterexample :
    luaSet (pi_lua_table_ro [("x", .num 1)]).1 (pi_lua_table_ro [("x", .num 1)]).2
      "x" (.num 2) = .ok [("x", .num 2)] ∧
    luaSet (pi_lua_table_ro [("x", .num 1)]).1 (pi_lua_table_ro [("x", .num 1)]).2
      "alpha" (.num 2) = .error "Attempt to modify read-only table" ∧
    luaSet (pi_lua_table_ro [("x", .num 1)]).1 (pi_lua_table_ro [("x", .num 1)]).2
      "beta" (.num 2) = .error "Attempt to modify read-only table" := by
  refine ⟨?_, rfl, rfl⟩
  rfl

/-- Claim C3 (amended): `pi_lua_table_ro` protects the namespace table in
place.  A write to a key not rawly present raises the fixed error
`Attempt to modify read-only table` (which does not name the key) and
returns no table; a write to a present key bypasses the handler and
mutates the table; a read of a present key returns its raw value, while a
read of an absent key does not return nil like a raw read on the backing
namespace would - the self-referential `__index` re-dispatches until the
runtime aborts with the `loop in gettable` error; `getmetatable` from
script code yields `false` rather than the metatable, and `setmetatable`
raises, so scripts cannot strip the protection. -/
theorem c3_table_ro_spec (backing : NTable) (k : String) (v : LuaValue) :
    ((rawget backing k).isSome = false →
      luaSet (pi_lua_table_ro backing).1 (pi_lua_table_ro backing).2 k v =
        .error "Attempt to modify read-only table") ∧
    ((rawget backing k).isSome = true →
      luaSet (pi_lua_table_ro backing).1 (pi_lua_table_ro backing).2 k v =
        .ok (rawset backing k v)) ∧
    ((rawget backing k).isSome = true →
      luaGet (pi_lua_table_ro backing).1 (pi_lua_table_ro backing).2 k =
        .ok ((rawget backing k).getD .nil)) ∧
    ((rawget backing k).isSome = false →
      luaGet (pi_lua_table_ro backing).1 (pi_lua_table_ro backing).2 k =
        .error "loop in gettable") ∧
    lua_getmetatable (pi_lua_table_ro backing).2 = some (.boolean false) ∧
    (∀ newMt, lua_setmetatable (pi_lua_table_ro backing).2 newMt =
      .error "cannot change a protected metatable") := by
  refine ⟨?_, ?_, ?_, ?_, rfl, fun _ => rfl⟩
  · intro h
    simp [pi_lua_table_ro, luaSet, h, ro_table_error]
  · intro h
    simp [pi_lua_table_ro, luaSet, h]
  · intro h
    obtain ⟨w, hw⟩ := Option.isSome_iff_exists.mp h
    unfold luaGet
    rw [hw]
    exact luaGetLoop_hit backing (pi_lua_table_ro backing).2 k 99 w hw
  · intro h
    have hmiss : rawget backing k = none := Option.not_isSome_iff_eq_none.mp (by
      rw [h]; exact Bool.false_ne_true)
    exact luaGetLoop_self backing (pi_lua_table_ro backing).2 k hmiss rfl 100

/-- Witness for claim C3: each hypothesis branch at the namespace
`{foo = 1}`, with the absent key `bar` and the present key `foo`. -/
theorem c3_table_ro_spec_witness :
    luaSet (pi_lua_table_ro [("foo", .num 1)]).1 (pi_lua_table_ro [("foo", .num 1)]).2
      "bar" (.boolean true) = .error "Attempt to modify read-only table" ∧
    luaSet (pi_lua_table_ro [("foo", .num 1)]).1 (pi_lua_table_ro [("foo", .num 1)]).2
      "foo" (.boolean true) = .ok (rawset [("foo", .num 1)] "foo" (.boolean true)) ∧
    luaGet (pi_lua_table_ro [("foo", .num 1)]).1 (pi_lua_table_ro [("foo", .num 1)]).2
      "foo" = .ok ((rawget [("foo", .num 1)] "foo").getD .nil) ∧
    luaGet (pi_lua_table_ro [("foo", .num 1)]).1 (pi_lua_table_ro [("foo", .num 1)]).2
      "bar" = .error "loop in gettable" :=
  ⟨(c3_table_ro_spec [("foo", .num 1)] "bar" (.boolean true)).1 (by rfl),
   (c3_table_ro_spec [("foo", .num 1)] "foo" (.boolean true)).2.1 (by rfl),
   (c3_table_ro_spec [("foo", .num 1)] "foo" (.boolean true)).2.2.1 (by rfl),
   (c3_table_ro_spec [("foo", .num 1)] "bar" (.boolean true)).2.2.2.1 (by rfl)⟩

/-- Outcome reported by `lua_pcall` for the execution of a script entry
point: success, or a runtime-level failure carrying the raw error value
(modelled as its message string). -/
inductive ScriptOutcome where
  | success
  | runtimeError (raw : String)

/-- What the host observes of one call into the protected-call pipeline.
`terminated` is the host fatal reporting path `Error(...)`, which does not
return (stated by the comment at `LuaUtils.cpp` line 168). -/
inductive HostResult where
  | returned
  | terminated (msg : String)
  deriving Repr, DecidableEq

/-- True when the protected call handed control back to its caller. -/
def HostResult.isReturned : HostResult → Bool
  | .returned => true
  | .terminated _ => false

/-- Model of the static C function `l_handle_error` (`LuaUtils.cpp` lines
143-150): `lua_pcall` invokes it with the raw error value on failure; it
forwards the value to the host-registered `PiDebug.error_handler` callback
and yields the result of that callback as the final error message. -/
def l_handle_error (error_handler : String → String) (raw : String) : String :=
  error_handler raw

/-- Model of `pi_lua_protected_call` (`LuaUtils.cpp` lines 175-186).  The
handler frame discipline (push the handler below the arguments, remove it
after the call) has no observable effect beyond the result modelled here.
When `lua_pcall` reports failure, the code reads the handler-produced
message and passes it to `Error(...)`, the noreturn host fatal path: the
host process terminates instead of receiving an error value. -/
def pi_lua_protected_call (error_handler : String → String)
    (exec : ScriptOutcome) : HostResult :=
  match exec with
  | .success => .returned
  | .runtimeError raw => .terminated (l_handle_error error_handler raw)

/-- Counterexample for claim C1: a concrete failing execution through
`pi_lua_protected_call` terminates the host process through the fatal
reporting path; the call does not return any value to its caller. -/
theorem c1_protected_call_counterexample :
    pi_lua_protected_call id (.runtimeError "boom") = .terminated "boom" ∧
    (pi_lua_protected_call id (.runtimeError "boom")).isReturned = false := by
  exact ⟨rfl, rfl⟩

/-- Claim C1 (amended): when script execution through
`pi_lua_protected_call` fails at runtime level, the error value is first
routed through the installed error handler, and the resulting message is
then reported through the host fatal-error path `Error()`, which does not
return: the host process terminates, and no error value is returned to the
caller.  Successful calls return normally. -/
theorem c1_protected_call_fatal (error_handler : String → String) (raw : String) :
    pi_lua_protected_call error_handler (.runtimeError raw) =
      .terminated (error_handler raw) ∧
    pi_lua_protected_call error_handler .success = .returned :=
  ⟨rfl, rfl⟩

/-- Identity of a runtime-provided function or value registered in the
sandboxed global namespace.  Distinct constructors and arguments model
distinct runtime objects; `hashRandomC` is the C function `l_hash_random`
pushed by `pi_lua_open_standard_base`. -/
inductive Ref where
  | base (name : String)
  | member (lib name : String)
  | hashRandomC
  deriving Repr, DecidableEq

/-- A value held by a global variable of the sandbox: a function, a
facility (library) table, or the global namespace itself (what the name
`_G` denotes after the base library is opened). -/
inductive GVal where
  | fn (f : Ref)
  | facility (entries : List (String × Ref))
  | globalsRef
  deriving Repr, DecidableEq

/-- The global namespace: an association list from names to values. -/
abbrev Globals := List (String × GVal)

/-- Model of `lua_setglobal` / `lua_setfield` over an association list;
storing `none` (nil) removes the binding, as assigning nil does in Lua. -/
def setA {α : Type} (t : List (String × α)) (k : String) (v : Option α) :
    List (String × α) :=
  match v with
  | none => t.filter (fun kv => !(kv.1 == k))
  | some w =>
    if (t.find? (fun kv => kv.1 == k)).isSome then
      t.map (fun kv => if kv.1 == k then (k, w) else kv)
    else t ++ [(k, w)]

/-- Model of `lua_getglobal` / `lua_getfield` over an association list. -/
def getA {α : Type} (t : List (String × α)) (k : String) : Option α :=
  (t.find? (fun kv => kv.1 == k)).map (fun kv => kv.2)

/-- Helper building the entry list of one runtime library. -/
def libEntries (lib : String) (names : List String) : List (String × Ref) :=
  names.map (fun n => (n, Ref.member lib n))

/-- Modelled from the spec: the functions the base library of the runtime
registers directly into the global namespace (the embedding runtime is Lua
5.2; the base library in particular provides `dofile` and `loadfile`, which
the sandbox then removes, and does not provide `require`, which lives in
the excluded package library). -/
def baseEntries : List (String × Ref) :=
  ["assert", "collectgarbage", "dofile", "error", "getmetatable", "ipairs",
   "load", "loadfile", "next", "pairs", "pcall", "print", "rawequal",
   "rawget", "rawlen", "rawset", "select", "setmetatable", "tonumber",
   "tostring", "type", "xpcall"].map (fun n => (n, Ref.base n))

/-- Modelled from the spec: the coroutine/cooperative-task facility. -/
def coroutineEntries : List (String × Ref) :=
  libEntries "coroutine" ["create", "resume", "running", "status", "wrap", "yield"]

/-- Modelled from the spec: the table/sequence facility. -/
def tableEntries : List (String × Ref) :=
  libEntries "table" ["concat", "insert", "pack", "remove", "sort", "unpack"]

/-- Modelled from the spec: the string facility. -/
def stringEntries : List (String × Ref) :=
  libEntries "string" ["byte", "char", "dump", "find", "format", "gmatch",
    "gsub", "len", "lower", "match", "rep", "reverse", "sub", "upper"]

/-- Modelled from the spec: the bit-operations facility. -/
def bit32Entries : List (String × Ref) :=
  libEntries "bit32" ["arshift", "band", "bnot", "bor", "btest", "bxor",
    "extract", "lrotate", "lshift", "replace", "rrotate", "rshift"]

/-- Modelled from the spec: the numeric/math facility, including the
host-RNG entry points `random` and `randomseed` (removed by the sandbox)
and the degrees-to-radians conversion `rad`. -/
def mathEntries : List (String × Ref) :=
  libEntries "math" ["abs", "acos", "asin", "atan", "atan2", "ceil", "cos",
    "cosh", "deg", "exp", "floor", "fmod", "frexp", "huge", "ldexp", "log",
    "max", "min", "modf", "pi", "pow", "rad", "random", "randomseed", "sin",
    "sinh", "sqrt", "tan", "tanh"]

/-- Modelled from the spec: the introspection/debug facility. -/
def debugEntries : List (String × Ref) :=
  libEntries "debug" ["debug", "gethook", "getinfo", "getlocal",
    "getmetatable", "getregistry", "getupvalue", "getuservalue", "sethook",
    "setlocal", "setmetatable", "setupvalue", "setuservalue", "traceback",
    "upvalueid", "upvaluejoin"]

/-- The allowlist array `STANDARD_LIBS` (`LuaUtils.cpp` lines 81-90): the
facility name paired with the registrations of the library opener.  The name
macros expand to `_G`, `coroutine`, `table`, `string`, `bit32`, `math` and
`debug`; the package, io and os libraries are deliberately not listed. -/
def STANDARD_LIBS : List (String × List (String × Ref)) :=
  [("_G", baseEntries), ("coroutine", coroutineEntries),
   ("table", tableEntries), ("string", stringEntries),
   ("bit32", bit32Entries), ("math", mathEntries), ("debug", debugEntries)]

/-- Model of `luaL_requiref` as used at `LuaUtils.cpp` line 117: run the
library opener and store the resulting module table under `name` as a
global.  Opening the base library registers its functions directly in the
global namespace, and its module table is the global namespace itself, so
`_G` is bound to a self-reference. -/
def luaL_requiref (g : Globals) (name : String)
    (entries : List (String × Ref)) : Globals :=
  if name = "_G" then
    setA (entries.foldl (fun a kv => setA a kv.1 (some (GVal.fn kv.2))) g)
      "_G" (some .globalsRef)
  else setA g name (some (.facility entries))

/-- Model of `pi_lua_open_standard_base` (`LuaUtils.cpp` lines 114-141):
open exactly the allowlisted facilities, remove `dofile` and `loadfile`
from the globals, then adjust the math facility: remove `random` and
`randomseed`, alias `deg2rad` to the existing `rad`, and install
`l_hash_random` as `hash_random`. -/
def pi_lua_open_standard_base : Globals :=
  let g := STANDARD_LIBS.foldl (fun a kv => luaL_requiref a kv.1 kv.2) []
  let g := setA g "dofile" (none : Option GVal)
  let g := setA g "loadfile" (none : Option GVal)
  let mathT :=
    match getA g "math" with
    | some (.facility e) => e
    | _ => []
  let mathT := setA mathT "random" (none : Option Ref)
  let mathT := setA mathT "randomseed" (none : Option Ref)
  let mathT := setA mathT "deg2rad" (getA mathT "rad")
  let mathT := setA mathT "hash_random" (some Ref.hashRandomC)
  setA g "math" (some (.facility mathT))

/-- The math facility table of the finished sandbox environment. -/
def sandboxMath : List (String × Ref) :=
  match getA pi_lua_open_standard_base "math" with
  | some (.facility e) => e
  | _ => []

/-- The names of the facility tables present in a global namespace (the
self-referential `_G` binding denotes the base facility). -/
def facilityNames (g : Globals) : List String :=
  g.filterMap (fun kv =>
    match kv.2 with
    | .facility _ => some kv.1
    | .globalsRef => some kv.1
    | .fn _ => none)

/-- The C-function implementations the sandbox itself registers, keyed by
identity.  Entries of the libraries of the runtime itself are opaque to this
module. -/
def cfunImpl : Ref → Option (List LuaValue → Except String LuaValue)
  | .hashRandomC => some l_hash_random
  | _ => none

/-- Claim C4: after `pi_lua_open_standard_base` the global namespace holds
exactly the base (`_G`), coroutine, table, string, bit32, math and debug
facilities; the package/module-loading, file-I/O and OS facilities and
`dofile`/`loadfile`/`require` are absent; `math.random` and
`math.randomseed` are absent; `math.deg2rad` is the very function
`math.rad`; and `math.hash_random` is the C function `l_hash_random`, the
Deterministic Randomness Source. -/
theorem c4_sandbox_environment :
    facilityNames pi_lua_open_standard_base =
      ["_G", "coroutine", "table", "string", "bit32", "math", "debug"] ∧
    getA pi_lua_open_standard_base "package" = none ∧
    getA pi_lua_open_standard_base "io" = none ∧
    getA pi_lua_open_standard_base "os" = none ∧
    getA pi_lua_open_standard_base "dofile" = none ∧
    getA pi_lua_open_standard_base "loadfile" = none ∧
    getA pi_lua_open_standard_base "require" = none ∧
    getA sandboxMath "random" = none ∧
    getA sandboxMath "randomseed" = none ∧
    getA sandboxMath "deg2rad" = getA sandboxMath "rad" ∧
    getA sandboxMath "deg2rad" = some (Ref.member "math" "rad") ∧
    getA sandboxMath "hash_random" = some Ref.hashRandomC ∧
    cfunImpl Ref.hashRandomC = some l_hash_random := by
  refine ⟨?_, ?_, ?_, ?_, ?_, ?_, ?_, ?_, ?_, ?_, ?_, ?_, rfl⟩ <;> decide

/-- The loader-visible mutable state threaded through the Script Loader:
the `CurrentDirectory` Lua global (the Directory Context), the scripts
executed so far (each paired with the Directory Context in force while it
ran), and the stderr diagnostic stream. -/
structure LoaderState where
  currentDirectory : Option String
  executed : List (String × Option String)
  diagnostics : List String
  deriving Repr, DecidableEq

/-- Modelled from the spec: a file-tree entry as yielded by the
`FileSystem` enumerator (an external collaborator), carrying its logical
path; directories carry their own enumerated entries in enumerator order. -/
inductive FSNode where
  | file (path : String)
  | dir (path : String) (entries : List FSNode)

/-- The recognized script suffix check of `LuaUtils.cpp` lines 260 and 286:
the path is longer than four bytes and its last four bytes are `.lua`.
C++ sizes are bytes; the paths modelled here are ASCII, where bytes and
characters coincide. -/
def hasLuaSuffix (p : String) : Bool :=
  decide (4 < p.length) && (p.drop (p.length - 4) == ".lua")

/-- The Directory Context string recorded for a directory: `.` stands in
for the empty path (`LuaUtils.cpp` lines 234-235 and 262). -/
def dirOrDot (d : String) : String := if d = "" then "." else d

/-- A Script Source Unit: the logical path of the file and its containing
directory, as reported by the file service. -/
structure FileData where
  path : String
  dir : String
  deriving Repr, DecidableEq

/-- Model of the static overload `pi_lua_dofile(lua_State, FileData)`
(`LuaUtils.cpp` lines 188-221): load and run the buffer.  Script bodies
are opaque data in this model and their execution is recorded in
`executed`; a runtime failure inside a body and its stderr classification do
not affect any claim here (the loader continues either way), and the
effects of a body on the globals are outside the model. -/
def pi_lua_dofile_code (code : FileData) (st : LoaderState) : LoaderState :=
  { st with executed := st.executed ++ [(code.path, st.currentDirectory)] }

/-- Undefined behavior reached by the loader: the null-handle dereference
of `pi_lua_dofile`, carrying the diagnostics emitted before the crash. -/
inductive Crash where
  | nullDereference (diagnostics : List String)
  deriving Repr, DecidableEq

/-- Model of `pi_lua_dofile(lua_State, const std::string&)` (`LuaUtils.cpp`
lines 223-246): read the file from the external file service.  When the
read fails the code only prints a warning to stderr and then
unconditionally calls `code->GetInfo()` on the null handle: undefined
behavior, modelled as a crash.  Otherwise it sets `CurrentDirectory` to
the directory of the unit (`.` when empty), executes the body, and clears
`CurrentDirectory` to nil afterwards. -/
def pi_lua_dofile (read : String → Option FileData) (path : String)
    (st : LoaderState) : Except Crash LoaderState :=
  match read path with
  | none =>
    .error (.nullDereference
      (st.diagnostics ++ ["could not read Lua file " ++ path]))
  | some code =>
    let st1 := { st with currentDirectory := some (dirOrDot code.dir) }
    let st2 := pi_lua_dofile_code code st1
    .ok { st2 with currentDirectory := none }

/-- Model of `pi_lua_dofile_recursive` (`LuaUtils.cpp` lines 248-273): walk
the enumerated entries of `basepath` in order; recurse into each
subdirectory; for each file whose path has the recognized suffix, set
`CurrentDirectory` to the directory being walked and execute the file;
skip every other file silently.  Nothing clears `CurrentDirectory` when
the walk finishes. -/
def pi_lua_dofile_recursive (basepath : String) (entries : List FSNode)
    (st : LoaderState) : LoaderState :=
  match entries with
  | [] => st
  | .dir p sub :: rest =>
    pi_lua_dofile_recursive basepath rest (pi_lua_dofile_recursive p sub st)
  | .file p :: rest =>
    if hasLuaSuffix p then
      pi_lua_dofile_recursive basepath rest
        (pi_lua_dofile_code { path := p, dir := basepath }
          { st with currentDirectory := some (dirOrDot basepath) })
    else pi_lua_dofile_recursive basepath rest st

/-- The suffix-matching files of a directory walk in traversal order, each
paired with the Directory Context in force while it executes. -/
def luaFiles (basepath : String) (entries : List FSNode) :
    List (String × Option String) :=
  match entries with
  | [] => []
  | .dir p sub :: rest => luaFiles p sub ++ luaFiles basepath rest
  | .file p :: rest =>
    (if hasLuaSuffix p then [(p, some (dirOrDot basepath))] else []) ++
      luaFiles basepath rest

/-- The Directory Context left behind by a sequence of executions: that of
the last executed file, or the given prior value when nothing ran. -/
def lastCtx (d : Option String) : List (String × Option String) → Option String
  | [] => d
  | e :: rest => lastCtx e.2 rest

lemma lastCtx_append (A B : List (String × Option String)) (d : Option String) :
    lastCtx d (A ++ B) = lastCtx (lastCtx d A) B := by
  induction A generalizing d with
  | nil => rfl
  | cons e rest ih => simp [lastCtx, ih]

/-- Complete characterisation of the directory walk: it appends exactly
the suffix-matching files (with their walk directories as context), sets
the Directory Context to that of the last executed file (leaving it alone
when no file matched), and emits no diagnostics. -/
lemma dofile_recursive_spec (basepath : String) (entries : List FSNode)
    (st : LoaderState) :
    pi_lua_dofile_recursive basepath entries st =
      { currentDirectory := lastCtx st.currentDirectory (luaFiles basepath entries),
        executed := st.executed ++ luaFiles basepath entries,
        diagnostics := st.diagnostics } := by
  suffices h : ∀ (n : Nat) (basepath : String) (entries : List FSNode)
      (st : LoaderState), sizeOf entries ≤ n →
      pi_lua_dofile_recursive basepath entries st =
        { currentDirectory := lastCtx st.currentDirectory (luaFiles basepath entries),
          executed := st.executed ++ luaFiles basepath entries,
          diagnostics := st.diagnostics } by
    exact h (sizeOf entries) basepath entries st le_rfl
  intro n
  induction n with
  | zero =>
    intro bp es st hs
    cases es with
    | nil => simp [pi_lua_dofile_recursive, luaFiles, lastCtx]
    | cons e rest => exfalso; cases e <;> simp at hs
  | succ n ih =>
    intro bp es st hs
    cases es with
    | nil => simp [pi_lua_dofile_recursive, luaFiles, lastCtx]
    | cons e rest =>
      cases e with
      | file p =>
        have hr : sizeOf rest ≤ n := by simp at hs; omega
        by_cases hsuf : hasLuaSuffix p
        · rw [pi_lua_dofile_recursive, if_pos hsuf,
            ih bp rest _ hr]
          simp [luaFiles, hsuf, lastCtx, pi_lua_dofile_code]
        · rw [pi_lua_dofile_recursive, if_neg hsuf, ih bp rest st hr]
          simp [luaFiles, hsuf, lastCtx]
      | dir p sub =>
        have hsub : sizeOf sub ≤ n := by simp at hs; omega
        have hr : sizeOf rest ≤ n := by simp at hs; omega
        rw [pi_lua_dofile_recursive, ih p sub st hsub, ih bp rest _ hr]
        simp [luaFiles, lastCtx_append, List.append_assoc]

/-- Counterexample for claim C5 on the example tree of the spec
`{a.lua, b.lua, sub/c.lua, notes.txt}` starting with no Directory Context:
the walk executes exactly `a.lua`, `b.lua`, `sub/c.lua` (skipping
`notes.txt`) with the walked directory as context, but after the whole
tree load completes the Directory Context is still `sub` - it is not
absent/cleared as the claim states. -/
theorem c5_context_not_cleared_counterexample :
    (pi_lua_dofile_recursive ""
        [.file "a.lua", .file "b.lua", .dir "sub" [.file "sub/c.lua"],
         .file "notes.txt"]
        ⟨none, [], []⟩).currentDirectory = some "sub" ∧
    (pi_lua_dofile_recursive ""
        [.file "a.lua", .file "b.lua", .dir "sub" [.file "sub/c.lua"],
         .file "notes.txt"]
        ⟨none, [], []⟩).currentDirectory ≠ none ∧
    (pi_lua_dofile_recursive ""
        [.file "a.lua", .file "b.lua", .dir "sub" [.file "sub/c.lua"],
         .file "notes.txt"]
        ⟨none, [], []⟩).executed =
      [("a.lua", some "."), ("b.lua", some "."), ("sub/c.lua", some "sub")] := by
  have ha : hasLuaSuffix "a.lua" = true := by decide
  have hb : hasLuaSuffix "b.lua" = true := by decide
  have hc : hasLuaSuffix "sub/c.lua" = true := by decide
  have hn : hasLuaSuffix "notes.txt" = false := by decide
  have hd0 : dirOrDot "" = "." := by decide
  have hd1 : dirOrDot "sub" = "sub" := by decide
  refine ⟨?_, ?_, ?_⟩ <;>
    simp [dofile_recursive_spec, luaFiles, lastCtx, ha, hb, hc, hn, hd0, hd1]

/-- Claim C5 (amended): for every directory tree, `pi_lua_dofile_recursive`
executes exactly the files whose paths end in the recognized script
suffix, in traversal order, recursing into every subdirectory and silently
skipping non-matching files; while each such file executes the Directory
Context equals the directory being walked (the context recorded with each
executed file); and after the whole tree load completes the Directory
Context equals the walked directory of the last executed file - it is NOT
cleared (when no file matched it keeps its prior value; clearing is done
only by the `pi_load_lua` wrapper). -/
theorem c5_tree_load (basepath : String) (entries : List FSNode)
    (st : LoaderState) :
    pi_lua_dofile_recursive basepath entries st =
      { currentDirectory := lastCtx st.currentDirectory (luaFiles basepath entries),
        executed := st.executed ++ luaFiles basepath entries,
        diagnostics := st.diagnostics } :=
  dofile_recursive_spec basepath entries st

/-- The status of a path as reported by `FileSystem::Lookup` (modelled from
the spec): whether it is a directory, a regular file, and whether anything
exists there at all. -/
structure PathInfo where
  isDir : Bool
  isFile : Bool
  present : Bool
  deriving Repr, DecidableEq

/-- Modelled from the spec: the external file service consumed by the
Script Loader: path lookup, directory enumeration, and file reading. -/
structure FS where
  lookup : String → PathInfo
  tree : String → List FSNode
  read : String → Option FileData

/-- What a call to `pi_load_lua` produces: a normal return with the
resulting loader state, a Lua error raised by `luaL_error` (carrying the
loader state as it was when the error was raised), or undefined behavior
reached inside `pi_lua_dofile`. -/
inductive LoadOutcome where
  | ok (st : LoaderState)
  | luaError (msg : String) (st : LoaderState)
  | crash (c : Crash)
  deriving Repr, DecidableEq

/-- The restore step at `LuaUtils.cpp` lines 296-300: the outer
`CurrentDirectory` was read through `luaL_optstring(l, -1, "")`, which maps
an absent value to the empty string; the restore then writes nil for the
empty string and the saved string otherwise.  An empty-string outer
context is therefore restored as absent. -/
def restoreCtx (outer : Option String) : Option String :=
  if outer.getD "" = "" then none else some (outer.getD "")

/-- Model of the compatibility entry point `pi_load_lua` (`LuaUtils.cpp`
lines 276-303): save the outer `CurrentDirectory`; dispatch on the target
(directory walk, single `.lua` file, file without the suffix, nonexistent
path, other targets); on the two successful branches restore the saved
context afterwards.  The `luaL_error` branches raise before any execution
is attempted, leaving the loader state untouched (the restore step is
skipped, but those branches never changed the context either).  Error
message strings are transcribed without quote characters. -/
def pi_load_lua (fs : FS) (path : String) (st : LoaderState) : LoadOutcome :=
  let info := fs.lookup path
  if info.isDir then
    let st1 := pi_lua_dofile_recursive path (fs.tree path) st
    .ok { st1 with currentDirectory := restoreCtx st.currentDirectory }
  else if info.isFile && hasLuaSuffix path then
    match pi_lua_dofile fs.read path st with
    | .error c => .crash c
    | .ok st1 =>
      .ok { st1 with currentDirectory := restoreCtx st.currentDirectory }
  else if info.isFile then
    .luaError ("load_lua(" ++ path ++ ") called on a file without a .lua extension") st
  else if !info.present then
    .luaError ("load_lua(" ++ path ++ ") called on a path that does not exist") st
  else
    .luaError ("load_lua(" ++ path ++ ") called on a path that does not refer to a valid file") st

/-- Counterexample for claim C6: a directory load whose outer Directory
Context is the empty string.  The dispatch succeeds, but the context
observed after the call is absent (nil), not the empty string observed
before the call: the outer value is not restored in this case, because the
save step reads the global through `luaL_optstring` with the empty string
standing for nil. -/
theorem c6_restore_counterexample :
    pi_load_lua
      { lookup := fun _ => ⟨true, false, true⟩, tree := fun _ => [],
        read := fun _ => none }
      "mods" ⟨some "", [], []⟩ = .ok ⟨none, [], []⟩ ∧
    (⟨some "", [], []⟩ : LoaderState).currentDirectory = some "" ∧
    some "" ≠ (none : Option String) := by
  refine ⟨?_, rfl, by decide⟩
  simp [pi_load_lua, pi_lua_dofile_recursive, restoreCtx]

/-- Claim C6 (amended): `pi_load_lua` dispatches exactly as claimed - a
directory triggers the recursive tree load, a file with the recognized
suffix triggers the single-file load, a file without the suffix fails with
the invalid-path-kind error without attempting execution, a nonexistent
path fails with the source-not-found error, and any other target fails
with the invalid-path-kind error.  On the successful branches the outer
Directory Context is restored, except that an empty-string outer context
is restored as absent; the error branches leave the loader state (context
included) untouched. -/
theorem c6_load_path_dispatch (fs : FS) (path : String) (st : LoaderState)
    (hread : (fs.lookup path).isFile = true → hasLuaSuffix path = true →
      (fs.read path).isSome = true)
    (hname : ∀ code, fs.read path = some code → code.path = path) :
    ((fs.lookup path).isDir = true →
      ∃ st1, pi_load_lua fs path st = .ok st1 ∧
        st1.executed = st.executed ++ luaFiles path (fs.tree path) ∧
        st1.currentDirectory = restoreCtx st.currentDirectory ∧
        st1.diagnostics = st.diagnostics) ∧
    ((fs.lookup path).isDir = false → (fs.lookup path).isFile = true →
      hasLuaSuffix path = true →
      ∃ st1 d, pi_load_lua fs path st = .ok st1 ∧
        st1.executed = st.executed ++ [(path, some d)] ∧
        st1.currentDirectory = restoreCtx st.currentDirectory ∧
        st1.diagnostics = st.diagnostics) ∧
    ((fs.lookup path).isDir = false → (fs.lookup path).isFile = true →
      hasLuaSuffix path = false →
      pi_load_lua fs path st =
        .luaError ("load_lua(" ++ path ++ ") called on a file without a .lua extension") st) ∧
    ((fs.lookup path).isDir = false → (fs.lookup path).isFile = false →
      (fs.lookup path).present = false →
      pi_load_lua fs path st =
        .luaError ("load_lua(" ++ path ++ ") called on a path that does not exist") st) ∧
    ((fs.lookup path).isDir = false → (fs.lookup path).isFile = false →
      (fs.lookup path).present = true →
      pi_load_lua fs path st =
        .luaError ("load_lua(" ++ path ++ ") called on a path that does not refer to a valid file") st) := by
  refine ⟨?_, ?_, ?_, ?_, ?_⟩
  · intro hdir
    refine ⟨{ pi_lua_dofile_recursive path (fs.tree path) st with
              currentDirectory := restoreCtx st.currentDirectory }, ?_, ?_, rfl, ?_⟩
    · simp [pi_load_lua, hdir]
    · simp [dofile_recursive_spec]
    · simp [dofile_recursive_spec]
  · intro hdir hfile hsuf
    obtain ⟨code, hcode⟩ := Option.isSome_iff_exists.mp (hread hfile hsuf)
    refine ⟨{ currentDirectory := restoreCtx st.currentDirectory,
              executed := st.executed ++ [(path, some (dirOrDot code.dir))],
              diagnostics := st.diagnostics }, dirOrDot code.dir, ?_, rfl, rfl, rfl⟩
    simp [pi_load_lua, hdir, hfile, hsuf, pi_lua_dofile, hcode, pi_lua_dofile_code,
      hname code hcode]
  · intro hdir hfile hsuf
    simp [pi_load_lua, hdir, hfile, hsuf]
  · intro hdir hfile hpres
    simp [pi_load_lua, hdir, hfile, hpres]
  · intro hdir hfile hpres
    simp [pi_load_lua, hdir, hfile, hpres]

/-- Witness for claim C6: the single-file branch at a concrete file
service holding `w.lua` in directory `scripts`. -/
theorem c6_load_path_dispatch_witness :
    ∃ st1 d, pi_load_lua
      { lookup := fun _ => ⟨false, true, true⟩, tree := fun _ => [],
        read := fun _ => some ⟨"w.lua", "scripts"⟩ }
      "w.lua" ⟨none, [], []⟩ = .ok st1 ∧
    st1.executed = (⟨none, [], []⟩ : LoaderState).executed ++ [("w.lua", some d)] ∧
    st1.currentDirectory = restoreCtx (⟨none, [], []⟩ : LoaderState).currentDirectory ∧
    st1.diagnostics = (⟨none, [], []⟩ : LoaderState).diagnostics :=
  (c6_load_path_dispatch
    { lookup := fun _ => ⟨false, true, true⟩, tree := fun _ => [],
      read := fun _ => some ⟨"w.lua", "scripts"⟩ }
    "w.lua" ⟨none, [], []⟩ (fun _ _ => rfl)
    (fun code h => by cases h; rfl)).2.1 rfl rfl (by decide)

/-- Claim C7: the code does not fail cleanly with a source-not-found
result.  Evaluating `pi_lua_dofile` at a path for which the file service
has no readable file: the code prints the warning and then dereferences
the null file handle - undefined behavior that can crash the host -
instead of returning a recoverable source-not-found result to the caller
as the specification intends (its design notes flag exactly this latent
null-dereference). -/
theorem c7_missing_file_null_deref :
    pi_lua_dofile (fun _ => none) "missing.lua" ⟨none, [], []⟩ =
      .error (.nullDereference ["could not read Lua file missing.lua"]) := rfl
